import Mathlib

/-!
Verification of the ingestion pipeline in `utils/process_datasets.py`.

Each Python function that the claims touch is embedded as an executable Lean
definition; machine floats are modelled as rationals (the claims under
consideration only compare values for equality and order), pandas tables are
modelled as lists of rows, and external fallible calls (file loading, the
database gateway) are modelled as explicit `Except` values supplied as
parameters.
-/

/-! ### Vehicle number standardization
`standardize_vehicle_number` (process_datasets.py lines 52-61):
```
clean = re.sub(r'[^A-Za-z0-9 -]', '', vehicle_number)
parts = [blk for blk in re.split(r'[\s\-]+', clean.upper()) if blk]
return '-'.join(parts)
```
-/

/-- Characters surviving the cleaning step `re.sub(r'[^A-Za-z0-9 -]', '', s)`:
ASCII alphanumerics, the space and the dash.  (`Char.isAlphanum` is exactly
the ASCII class `[A-Za-z0-9]`.) -/
def keepChar (c : Char) : Bool := c.isAlphanum || c == ' ' || c == '-'

/-- Separator characters for the splitting step `re.split(r'[\s\-]+', ...)`.
After cleaning, the only whitespace character that can remain is the plain
space, so the class `[\s\-]` reduces to space-or-dash. -/
def sepChar (c : Char) : Bool := c == ' ' || c == '-'

/-- Effect of Python `str.upper()` on one character of the cleaned string
(the cleaned string is pure ASCII, where `upper` is the ASCII mapping). -/
def upperChar (c : Char) : Char :=
  if 97 ≤ c.toNat ∧ c.toNat ≤ 122 then Char.ofNat (c.toNat - 32) else c

/-- Maximal runs of non-separator characters, in order: exactly the non-empty
blocks kept from `re.split(r'[\s\-]+', s)` (the split pieces with empty pieces
dropped, as done by `if blk`).  `acc` holds the current run, reversed. -/
def blocksAux : List Char → List Char → List (List Char)
  | [], acc => if acc.isEmpty then [] else [acc.reverse]
  | c :: cs, acc =>
    if sepChar c then
      if acc.isEmpty then blocksAux cs [] else acc.reverse :: blocksAux cs []
    else blocksAux cs (c :: acc)

def blocks (l : List Char) : List (List Char) := blocksAux l []

/-- `standardize_vehicle_number` on the character list of the input string:
clean, uppercase, split into blocks, rejoin with single dashes.  (The guard
`if not vehicle_number: return ''` agrees with this on the empty string.) -/
def standardizeChars (l : List Char) : List Char :=
  List.intercalate ['-'] (blocks ((l.filter keepChar).map upperChar))

def standardize_vehicle_number (s : String) : String :=
  String.mk (standardizeChars s.data)

/-- Shape invariant claimed for the output: uppercase alphanumeric blocks
joined by single dashes (a character is "uppercase" when `upper` fixes it). -/
def IsStdForm (l : List Char) : Prop :=
  ∃ bs : List (List Char),
    (∀ b ∈ bs, b ≠ [] ∧ ∀ c ∈ b, c.isAlphanum = true ∧ upperChar c = c) ∧
    l = List.intercalate ['-'] bs

/-! #### Character-level lemmas -/

theorem upperChar_alnum {c : Char} (h : c.isAlphanum = true) :
    (upperChar c).isAlphanum = true ∧ upperChar (upperChar c) = upperChar c := by
  unfold upperChar
  split
  · rename_i hc
    obtain ⟨h1, h2⟩ := hc
    set n := c.toNat with hn
    clear_value n
    interval_cases n <;> exact ⟨by decide, by decide⟩
  · simpa [upperChar] using h

theorem alnum_not_sep {c : Char} (h : c.isAlphanum = true) : sepChar c = false := by
  by_cases h1 : c = ' '
  · exact absurd (h1 ▸ h) (by decide)
  · by_cases h2 : c = '-'
    · exact absurd (h2 ▸ h) (by decide)
    · simp [sepChar, h1, h2]

theorem keep_not_sep_alnum {c : Char} (hk : keepChar c = true) (hs : sepChar c = false) :
    c.isAlphanum = true := by
  simp only [keepChar, Bool.or_eq_true] at hk
  rcases hk with (h | h) | h
  · exact h
  · exfalso; simp [sepChar, h] at hs
  · exfalso; simp [sepChar, h] at hs

theorem sep_upper_fixed {c : Char} (hs : sepChar c = true) : upperChar c = c := by
  simp only [sepChar, Bool.or_eq_true, beq_iff_eq] at hs
  rcases hs with rfl | rfl <;> decide

theorem alnum_keep {c : Char} (h : c.isAlphanum = true) : keepChar c = true := by
  simp [keepChar, h]

theorem map_fixed_eq_self {α : Type} (f : α → α) :
    ∀ l : List α, (∀ x ∈ l, f x = x) → l.map f = l
  | [], _ => rfl
  | x :: xs, h => by
    simp only [List.map_cons, h x (by simp), List.cons.injEq, true_and]
    exact map_fixed_eq_self f xs fun y hy => h y (by simp [hy])

/-! #### Structure of `blocksAux` -/

theorem blocksAux_run (t : List Char) :
    ∀ (b acc : List Char), (∀ c ∈ b, sepChar c = false) →
      blocksAux (b ++ t) acc = blocksAux t (b.reverse ++ acc)
  | [], acc, _ => by simp
  | c :: b', acc, h => by
    have hc : sepChar c = false := h c (by simp)
    simp only [List.cons_append, blocksAux, hc, Bool.false_eq_true, if_false,
      List.reverse_cons, List.append_assoc, List.singleton_append]
    exact blocksAux_run t b' (c :: acc) fun x hx => h x (by simp [hx])

theorem blocks_intercalate :
    ∀ bs : List (List Char),
      (∀ b ∈ bs, b ≠ [] ∧ ∀ c ∈ b, sepChar c = false) →
      blocks (List.intercalate ['-'] bs) = bs
  | [], _ => rfl
  | [b], h => by
    obtain ⟨hb, hbc⟩ := h b (by simp)
    show blocksAux (List.intercalate ['-'] [b]) [] = [b]
    have : List.intercalate ['-'] [b] = b ++ [] := by
      simp [List.intercalate, List.intersperse]
    rw [this, blocksAux_run [] b [] hbc]
    simp [blocksAux, List.isEmpty_iff, hb]
  | b :: b' :: bs, h => by
    obtain ⟨hb, hbc⟩ := h b (by simp)
    have hjoin : List.intercalate ['-'] (b :: b' :: bs)
        = b ++ '-' :: List.intercalate ['-'] (b' :: bs) := by
      simp [List.intercalate, List.intersperse]
    show blocksAux (List.intercalate ['-'] (b :: b' :: bs)) [] = b :: b' :: bs
    rw [hjoin, blocksAux_run ('-' :: List.intercalate ['-'] (b' :: bs)) b [] hbc]
    have hsep : sepChar '-' = true := by decide
    simp only [blocksAux, hsep, if_true, List.append_nil, List.isEmpty_iff,
      List.reverse_eq_nil_iff]
    rw [if_neg hb]
    have := blocks_intercalate (b' :: bs) fun x hx => h x (by simp [hx])
    simp only [blocks] at this
    simp [this]

theorem blocksAux_good (p : Char → Prop) :
    ∀ (l acc : List Char),
      (∀ c ∈ l, sepChar c = false → p c) →
      (∀ c ∈ acc, p c ∧ sepChar c = false) →
      ∀ b ∈ blocksAux l acc, b ≠ [] ∧ ∀ c ∈ b, p c ∧ sepChar c = false
  | [], acc, _, hacc => by
    intro b hb
    simp only [blocksAux] at hb
    split at hb
    · simp at hb
    · rename_i hne
      simp only [List.mem_singleton] at hb
      subst hb
      refine ⟨by simpa [List.isEmpty_iff] using hne, ?_⟩
      intro c hc
      exact hacc c (List.mem_reverse.mp hc)
  | c :: cs, acc, hl, hacc => by
    intro b hb
    simp only [blocksAux] at hb
    by_cases hc : sepChar c = true
    · rw [if_pos hc] at hb
      split at hb
      · exact blocksAux_good p cs [] (fun x hx hs => hl x (by simp [hx]) hs)
          (by simp) b hb
      · rename_i hne
        rcases List.mem_cons.mp hb with rfl | hb'
        · refine ⟨by simpa [List.isEmpty_iff] using hne, ?_⟩
          intro x hx
          exact hacc x (List.mem_reverse.mp hx)
        · exact blocksAux_good p cs [] (fun x hx hs => hl x (by simp [hx]) hs)
            (by simp) b hb'
    · rw [if_neg hc] at hb
      have hcf : sepChar c = false := eq_false_of_ne_true hc
      refine blocksAux_good p cs (c :: acc) (fun x hx hs => hl x (by simp [hx]) hs) ?_ b hb
      intro x hx
      rcases List.mem_cons.mp hx with rfl | hx'
      · exact ⟨hl x (by simp) hcf, hcf⟩
      · exact hacc x hx'

theorem std_blocks_good (l : List Char) :
    ∀ b ∈ blocks ((l.filter keepChar).map upperChar),
      b ≠ [] ∧ ∀ c ∈ b, (c.isAlphanum = true ∧ upperChar c = c) ∧ sepChar c = false := by
  apply blocksAux_good (fun c => c.isAlphanum = true ∧ upperChar c = c)
  · intro c hc hs
    obtain ⟨c₀, hc₀, rfl⟩ := List.mem_map.mp hc
    have hk : keepChar c₀ = true := List.of_mem_filter hc₀
    by_cases hsep : sepChar c₀ = true
    · rw [sep_upper_fixed hsep, hsep] at hs
      cases hs
    · have halnum := keep_not_sep_alnum hk (eq_false_of_ne_true hsep)
      exact upperChar_alnum halnum
  · simp

theorem isStdForm_standardize (l : List Char) : IsStdForm (standardizeChars l) := by
  refine ⟨blocks ((l.filter keepChar).map upperChar), ?_, rfl⟩
  intro b hb
  obtain ⟨hne, hall⟩ := std_blocks_good l b hb
  exact ⟨hne, fun c hc => (hall c hc).1⟩

theorem intercalate_clean :
    ∀ bs : List (List Char),
      (∀ b ∈ bs, ∀ c ∈ b, keepChar c = true ∧ upperChar c = c) →
      ((List.intercalate ['-'] bs).filter keepChar).map upperChar
        = List.intercalate ['-'] bs
  | [], _ => rfl
  | [b], h => by
    have hb := h b (by simp)
    have h1 : List.intercalate ['-'] [b] = b := by
      simp [List.intercalate, List.intersperse]
    rw [h1, List.filter_eq_self.mpr fun c hc => (hb c hc).1]
    exact map_fixed_eq_self upperChar b fun c hc => (hb c hc).2
  | b :: b' :: bs, h => by
    have hb := h b (by simp)
    have hjoin : List.intercalate ['-'] (b :: b' :: bs)
        = b ++ '-' :: List.intercalate ['-'] (b' :: bs) := by
      simp [List.intercalate, List.intersperse]
    rw [hjoin, List.filter_append, List.filter_eq_self.mpr fun c hc => (hb c hc).1]
    have hdash : keepChar '-' = true := by decide
    rw [List.filter_cons_of_pos hdash, List.map_append,
      map_fixed_eq_self upperChar b fun c hc => (hb c hc).2, List.map_cons]
    have hud : upperChar '-' = '-' := by decide
    rw [hud, intercalate_clean (b' :: bs) fun x hx => h x (by simp [hx])]

theorem standardize_fixed_of_stdform {l : List Char} (h : IsStdForm l) :
    standardizeChars l = l := by
  obtain ⟨bs, hbs, rfl⟩ := h
  unfold standardizeChars
  rw [intercalate_clean bs fun b hb c hc =>
    ⟨alnum_keep ((hbs b hb).2 c hc).1, ((hbs b hb).2 c hc).2⟩]
  rw [blocks_intercalate bs fun b hb =>
    ⟨(hbs b hb).1, fun c hc => alnum_not_sep ((hbs b hb).2 c hc).1⟩]

/-- C5: `standardize_vehicle_number` is idempotent, its output consists of
uppercase alphanumeric blocks joined by single dashes with every other
character removed, and it maps `"mp09 ab1234"` to `"MP09-AB1234"`. -/
theorem standardize_vehicle_number_idempotent :
    (∀ s : String,
        standardize_vehicle_number (standardize_vehicle_number s)
          = standardize_vehicle_number s ∧
        IsStdForm (standardize_vehicle_number s).data) ∧
    standardize_vehicle_number "mp09 ab1234" = "MP09-AB1234" := by
  refine ⟨fun s => ⟨?_, isStdForm_standardize s.data⟩, by decide⟩
  show String.mk (standardizeChars (standardizeChars s.data)) = _
  rw [standardize_fixed_of_stdform (isStdForm_standardize s.data)]
  rfl

/-! ### Column name standardization
`normalize` (lines 168-170, embedded as `normalizeName` because Mathlib
already declares a root-level `normalize`), `COLUMN_MAPPING` (lines 78-165) and
`standardize_columns` (lines 173-189).  A table's column list is modelled as a
`List String`; `df.rename(columns=renamed)` renames each column through the
`renamed` dict and leaves unmatched columns alone. -/

/-- Effect of Python `str.lower()` on one ASCII character. -/
def lowerChar (c : Char) : Char :=
  if 65 ≤ c.toNat ∧ c.toNat ≤ 90 then Char.ofNat (c.toNat + 32) else c

/-- The fuzzy-matching key: `''.join(e for e in s.lower() if e.isalnum())`.
(Python's `str.isalnum` also accepts a few non-ASCII numeric characters such
as `'²'`; for the concrete alias strings below the two conventions produce
keys that agree on every comparison the proofs use, since no canonical field
name contains a non-ASCII character.) -/
def normalizeName (s : String) : String :=
  String.mk ((s.data.map lowerChar).filter Char.isAlphanum)

/-- `COLUMN_MAPPING` transcribed from lines 78-165, in source (dict insertion)
order. -/
def COLUMN_MAPPING : List (String × List String) := [
  ("speed", ["Speed (km/h)", "Vehicle Speed Sensor [km/h]", "VEHICLE_SPEED",
    "VEHICLE_SPEED ()", "SPEED", "speed", "gps_speed", "Speed (GPS)(km/h)",
    "Speed (OBD)(km/h)", "Average trip speed(whilst moving only)(km/h)",
    "Average trip speed(whilst stopped or moving)(km/h)", "velocity", "car_speed"]),
  ("rpm", ["Engine RPM [RPM]", "ENGINE_RPM", "ENGINE_RPM ()", "ENGINE RPM(rpm)",
    "rpm", "Motor speed (rpm)", "engine_rpm", "motor_rpm", "revolutions_per_minute"]),
  ("acceleration", ["Acceleration (m/s²)", "Acceleration Sensor(Total)(g)",
    "accData", "acceleration", "accel", "longitudinal_acceleration",
    "acc_x", "acc_y", "acc_z"]),
  ("brake", ["Braking intensity (%)", "Braking intensity ()",
    "Regen braking level (%)", "Regen braking state", "brake_position",
    "brake_pedal", "braking_force"]),
  ("throttle", ["Throttle position (%)", "THROTTLE", "THROTTLE ()",
    "Absolute Throttle Position [%]", "Throttle Position(Manifold)(%)",
    "Absolute Throttle Position B(%)", "tPos", "THROTTLE_POS",
    "throttle_position", "accelerator_position", "gas_pedal"]),
  ("engine_load", ["ENGINE_LOAD", "ENGINE_LOAD ()", "Engine Load(Absolute)(%)",
    "Engine Load(%)", "eLoad", "calculated_engine_load", "engine_load_percent"]),
  ("coolant_temp", ["COOLANT_TEMPERATURE", "COOLANT_TEMPERATURE ()",
    "Engine Coolant Temperature [°C]", "ENGINE_COOLANT_TEMP",
    "Engine Coolant Temperature(°C)", "cTemp", "coolant_temperature", "engine_temp"]),
  ("battery", ["Battery SoC (%)", "Battery current (A)", "battery",
    "battery_voltage", "soc", "state_of_charge"]),
  ("fuel_level", ["FUEL_LEVEL", "FUEL_LEVEL ()", "FUEL_TANK",
    "Fuel Remaining (Calculated from vehicle profile)(%)", "fuel_tank_level",
    "fuel_percentage"]),
  ("trip_distance", ["Distance traveled (km)", "Trip distance (km)",
    "Trip Distance(km)", "Trip Distance", "distance", "odometer", "total_distance"]),
  ("trip_time", ["Trip time (min)", "Trip Time(Since journey start)(s)", "TIME",
    "duration", "elapsed_time"]),
  ("latitude", ["LATITUDE", "LATITUDE ()", "GPS Latitude(°)", "Latitude",
    "lat", "gps_lat"]),
  ("longitude", ["LONGITUDE", "LONGITUDE ()", "GPS Longitude(°)", "Longitude",
    "lon", "lng", "gps_lon"]),
  ("driver_rating", ["Driver Behavior rating", "driving_score", "safety_score",
    "performance_rating"]),
  ("user_id", ["User ID", "user_id", "driver_id", "Driver ID", "USER_ID",
    "DRIVER_ID", "UserId", "DriverId", "User", "Driver", "user", "driver"]),
  ("trip_id", ["Trip ID", "trip_id", "TRIP_ID", "TripId", "Trip", "trip",
    "journey_id"]),
  ("timestamp", ["Timestamp", "timestamp", "TIMESTAMP", "Time", "time", "TIME",
    "DateTime", "datetime", "DATETIME", "Date Time", "date_time", "recorded_at"]),
  ("steering_angle", ["Steering Angle", "steering_angle", "wheel_angle",
    "steering_position"]),
  ("angular_velocity", ["Angular Velocity", "angular_velocity", "yaw_rate",
    "rotation_rate"]),
  ("gear_position", ["Gear Position", "gear_position", "gear", "transmission_gear"]),
  ("tire_pressure", ["Tire Pressure", "tire_pressure", "wheel_pressure",
    "tyre_pressure"]),
  ("brake_pressure", ["Brake Pressure", "brake_pressure", "braking_pressure",
    "brake_force"]),
  ("vehicle_number", ["Vehicle Number", "vehicle_number", "VehicleNumber",
    "VEHICLE_NUMBER", "License Plate", "license_plate", "LicensePlate",
    "LICENSE_PLATE", "Registration Number", "registration_number", "RegNumber",
    "reg_number", "Plate Number", "plate_number", "PlateNumber", "PLATE_NUMBER",
    "Car Number", "car_number", "CarNumber", "CAR_NUMBER"])]

/-- The canonical field names: the keys of `COLUMN_MAPPING`. -/
def canonicalNames : List String := COLUMN_MAPPING.map (·.1)

/-- The dict `columns_norm = \x7bnormalize(col): col for col in df.columns\x7d`:
looking up a key returns the LAST column with that normalized key (later
comprehension entries overwrite earlier ones). -/
def columnsNormLookup (cols : List String) (key : String) : Option String :=
  cols.reverse.find? (fun c => normalizeName c == key)

/-- The `renamed` dict built by the loop of `standardize_columns`: for every
canonical field, the first variant (in alias-list order) whose normalized form
is a key of `columns_norm` contributes the entry `original_column ↦ std_name`;
the `break` stops at that first variant. -/
def buildRenamed (mapping : List (String × List String)) (cols : List String) :
    List (String × String) :=
  mapping.filterMap fun p =>
    (p.2.find? fun v => (columnsNormLookup cols (normalizeName v)).isSome).bind fun v =>
      (columnsNormLookup cols (normalizeName v)).map fun orig => (orig, p.1)

/-- `df.rename(columns=renamed)` on one column name: entries later in the
dict overwrite earlier ones for the same key, unmatched names are unchanged. -/
def applyRename (renamed : List (String × String)) (col : String) : String :=
  match renamed.reverse.find? (fun e => e.1 == col) with
  | some e => e.2
  | none => col

/-- `standardize_columns(df, mapping)` restricted to its effect on the column
name list. -/
def standardize_columns (cols : List String) (mapping : List (String × List String)) :
    List String :=
  cols.map (applyRename (buildRenamed mapping cols))

/-- Finite check: no alias of one canonical field normalizes to the same key
as a DIFFERENT canonical field's own name. -/
def mappingSelfCheck : Bool :=
  COLUMN_MAPPING.all fun p =>
    p.2.all fun v =>
      canonicalNames.all fun c => normalizeName c != normalizeName v || c == p.1

theorem mappingSelfCheck_true : mappingSelfCheck = true := by decide

theorem mapping_self {std : String} {vs : List String} {v c : String}
    (hp : (std, vs) ∈ COLUMN_MAPPING) (hv : v ∈ vs) (hc : c ∈ canonicalNames)
    (heq : normalizeName c = normalizeName v) : c = std := by
  have h := mappingSelfCheck_true
  simp only [mappingSelfCheck, List.all_eq_true] at h
  have h2 := h (std, vs) hp v hv c hc
  simp only [Bool.or_eq_true, bne_iff_ne, beq_iff_eq] at h2
  rcases h2 with h2 | h2
  · exact absurd heq h2
  · exact h2

theorem buildRenamed_entries {cols : List String}
    (hcols : ∀ c ∈ cols, c ∈ canonicalNames) :
    ∀ e ∈ buildRenamed COLUMN_MAPPING cols, e.1 = e.2 := by
  intro e he
  simp only [buildRenamed, List.mem_filterMap] at he
  obtain ⟨p, hp, hfp⟩ := he
  cases hfind : p.2.find? (fun v => (columnsNormLookup cols (normalizeName v)).isSome) with
  | none => rw [hfind] at hfp; simp at hfp
  | some v =>
    rw [hfind] at hfp
    simp only [Option.some_bind] at hfp
    cases hlook : columnsNormLookup cols (normalizeName v) with
    | none => rw [hlook] at hfp; simp at hfp
    | some orig =>
      rw [hlook] at hfp
      simp only [Option.map_some'] at hfp
      have hmem : orig ∈ cols :=
        List.mem_reverse.mp (List.mem_of_find?_eq_some hlook)
      have hpred : normalizeName orig = normalizeName v := by
        have := List.find?_some hlook
        simpa using this
      have hvmem : v ∈ p.2 := List.mem_of_find?_eq_some hfind
      have horig : orig = p.1 :=
        mapping_self (show (p.1, p.2) ∈ COLUMN_MAPPING from hp) hvmem
          (hcols orig hmem) hpred
      obtain rfl : (orig, p.1) = e := by simpa using hfp
      exact horig

theorem applyRename_id {renamed : List (String × String)}
    (h : ∀ e ∈ renamed, e.1 = e.2) (col : String) :
    applyRename renamed col = col := by
  unfold applyRename
  cases hfind : renamed.reverse.find? (fun e => e.1 == col) with
  | none => rfl
  | some e =>
    have hmem := List.mem_reverse.mp (List.mem_of_find?_eq_some hfind)
    have hpred := List.find?_some hfind
    simp only [beq_iff_eq] at hpred
    show e.2 = col
    exact (h e hmem) ▸ hpred

/-- C6: column resolution is idempotent — on a table whose column names are
all canonical field names of `COLUMN_MAPPING`, `standardize_columns` leaves
every column name unchanged. -/
theorem standardize_columns_canonical_noop (cols : List String)
    (hcols : ∀ c ∈ cols, c ∈ canonicalNames) :
    standardize_columns cols COLUMN_MAPPING = cols := by
  unfold standardize_columns
  exact map_fixed_eq_self _ cols fun c _ =>
    applyRename_id (buildRenamed_entries hcols) c

theorem standardize_columns_canonical_noop_witness :
    (∀ c ∈ ["speed", "rpm", "user_id", "timestamp"], c ∈ canonicalNames) ∧
    standardize_columns ["speed", "rpm", "user_id", "timestamp"] COLUMN_MAPPING
      = ["speed", "rpm", "user_id", "timestamp"] :=
  ⟨by decide, standardize_columns_canonical_noop _ (by decide)⟩

/-! ### Trip record validation
`validate_trip_data` (lines 355-392).  Only the fields the function reads are
modelled; a Python dict entry that is missing or `None` is `none`.  Numeric
values are rationals.  The error strings elide the `\x7b:.1f\x7d` numeric
formatting of the source messages.  The function body is split into one
definition per source block (required fields, distance, duration, speed);
`validate_trip_data` chains them in source order, threading the mutated
record and appending each block's errors. -/

structure TripData where
  user_id : Option Int
  trip_date : Option Nat
  distance_km : Option ℚ
  avg_speed_kmph : Option ℚ
  score : Option String
  trip_duration : Option ℚ
deriving DecidableEq

def MIN_TRIP_DURATION_MINUTES : ℚ := 2

def MAX_TRIP_DURATION_MINUTES : ℚ := 1440

def MIN_TRIP_DISTANCE_KM : ℚ := 1/2

def MAX_TRIP_DISTANCE_KM : ℚ := 2000

/-- The required-field loop of lines 360-363, in the source's field order. -/
def requiredFieldErrors (td : TripData) : List String :=
  (if td.user_id.isNone then ["Missing required field: user_id"] else []) ++
  (if td.trip_date.isNone then ["Missing required field: trip_date"] else []) ++
  (if td.distance_km.isNone then ["Missing required field: distance_km"] else []) ++
  (if td.avg_speed_kmph.isNone then ["Missing required field: avg_speed_kmph"] else []) ++
  (if td.score.isNone then ["Missing required field: score"] else [])

/-- The distance block (lines 366-372): a distance above the maximum is
capped in place; any other out-of-range distance is left alone and produces
no error. -/
def distanceStep (td : TripData) : TripData :=
  match td.distance_km with
  | some d =>
    if MIN_TRIP_DISTANCE_KM ≤ d ∧ d ≤ MAX_TRIP_DISTANCE_KM then td
    else if MAX_TRIP_DISTANCE_KM < d then
      { td with distance_km := some MAX_TRIP_DISTANCE_KM }
    else td
  | none => td

/-- The duration block (lines 374-382): a duration above the maximum is
capped, one below the minimum adds an error. -/
def durationStep (td : TripData) : TripData × List String :=
  match td.trip_duration with
  | some u =>
    if MIN_TRIP_DURATION_MINUTES ≤ u ∧ u ≤ MAX_TRIP_DURATION_MINUTES then (td, [])
    else if MAX_TRIP_DURATION_MINUTES < u then
      ({ td with trip_duration := some MAX_TRIP_DURATION_MINUTES }, [])
    else if u < MIN_TRIP_DURATION_MINUTES then (td, ["Trip too short"])
    else (td, [])
  | none => (td, [])

/-- The speed block (lines 384-390): a speed above 300 is replaced by
`min(speed, 200)`, a negative speed adds an error. -/
def speedStep (td : TripData) : TripData × List String :=
  match td.avg_speed_kmph with
  | some s =>
    if 0 ≤ s ∧ s ≤ 300 then (td, [])
    else if 300 < s then
      ({ td with avg_speed_kmph := some (min s 200) }, [])
    else (td, ["Invalid average speed"])
  | none => (td, [])

/-- `validate_trip_data`: chains the four blocks in source order and returns
the mutated record together with `(len(errors) == 0, errors)`. -/
def validate_trip_data (td0 : TripData) : TripData × Bool × List String :=
  let errs0 := requiredFieldErrors td0
  let td1 := distanceStep td0
  let p2 := durationStep td1
  let p3 := speedStep p2.1
  let errs := errs0 ++ p2.2 ++ p3.2
  (p3.1, errs.isEmpty, errs)

/-- All five required fields of lines 360-363 are present and non-null. -/
def RequiredPresent (td : TripData) : Prop :=
  td.user_id.isSome = true ∧ td.trip_date.isSome = true ∧
  td.distance_km.isSome = true ∧ td.avg_speed_kmph.isSome = true ∧
  td.score.isSome = true

/-- The duration, when present, is not below the hard minimum. -/
def DurationOK (td : TripData) : Prop :=
  ∀ u, td.trip_duration = some u → MIN_TRIP_DURATION_MINUTES ≤ u

/-- The average speed, when present, is not negative. -/
def SpeedOK (td : TripData) : Prop :=
  ∀ s, td.avg_speed_kmph = some s → 0 ≤ s

theorem requiredFieldErrors_eq_nil (td : TripData) :
    requiredFieldErrors td = [] ↔ RequiredPresent td := by
  obtain ⟨uid, dt, dk, sp, sc, du⟩ := td
  unfold requiredFieldErrors RequiredPresent
  cases uid <;> cases dt <;> cases dk <;> cases sp <;> cases sc <;> simp

theorem distanceStep_duration (td : TripData) :
    (distanceStep td).trip_duration = td.trip_duration := by
  unfold distanceStep
  cases td.distance_km
  · rfl
  · dsimp only
    split_ifs <;> rfl

theorem distanceStep_speed (td : TripData) :
    (distanceStep td).avg_speed_kmph = td.avg_speed_kmph := by
  unfold distanceStep
  cases td.distance_km
  · rfl
  · dsimp only
    split_ifs <;> rfl

theorem durationStep_speed (td : TripData) :
    (durationStep td).1.avg_speed_kmph = td.avg_speed_kmph := by
  unfold durationStep
  cases td.trip_duration
  · rfl
  · dsimp only
    split_ifs <;> rfl

theorem durationStep_distance (td : TripData) :
    (durationStep td).1.distance_km = td.distance_km := by
  unfold durationStep
  cases td.trip_duration
  · rfl
  · dsimp only
    split_ifs <;> rfl

theorem speedStep_distance (td : TripData) :
    (speedStep td).1.distance_km = td.distance_km := by
  unfold speedStep
  cases td.avg_speed_kmph
  · rfl
  · dsimp only
    split_ifs <;> rfl

theorem durationStep_errs (td : TripData) :
    (durationStep td).2 = [] ↔ DurationOK td := by
  unfold durationStep DurationOK
  cases hdu : td.trip_duration with
  | none => simp
  | some u =>
    dsimp only
    split_ifs with h1 h2 h3
    · simp only [true_iff]
      intro v hv
      cases hv
      exact h1.1
    · simp only [true_iff]
      intro v hv
      cases hv
      unfold MIN_TRIP_DURATION_MINUTES MAX_TRIP_DURATION_MINUTES at *
      linarith
    · constructor
      · intro hcon
        exact absurd hcon (by simp)
      · intro hall
        exfalso
        exact absurd (hall u rfl) (not_le.mpr h3)
    · simp only [true_iff]
      intro v hv
      cases hv
      linarith

theorem speedStep_errs (td : TripData) :
    (speedStep td).2 = [] ↔ SpeedOK td := by
  unfold speedStep SpeedOK
  cases hsp : td.avg_speed_kmph with
  | none => simp
  | some s =>
    dsimp only
    split_ifs with h1 h2
    · simp only [true_iff]
      intro v hv
      cases hv
      exact h1.1
    · simp only [true_iff]
      intro v hv
      cases hv
      linarith
    · constructor
      · intro hcon
        exact absurd hcon (by simp)
      · intro hall
        exfalso
        exact h1 ⟨hall s rfl, le_of_not_lt h2⟩

theorem validate_valid_iff (td : TripData) :
    (validate_trip_data td).2.1 = true ↔
      RequiredPresent td ∧ DurationOK td ∧ SpeedOK td := by
  have h2 : (durationStep (distanceStep td)).2 = [] ↔ DurationOK td := by
    rw [durationStep_errs]
    unfold DurationOK
    rw [distanceStep_duration]
  have h3 : (speedStep (durationStep (distanceStep td)).1).2 = [] ↔ SpeedOK td := by
    rw [speedStep_errs]
    unfold SpeedOK
    rw [durationStep_speed, distanceStep_speed]
  simp only [validate_trip_data, List.isEmpty_iff, List.append_eq_nil]
  rw [requiredFieldErrors_eq_nil, h2, h3, and_assoc]

theorem validate_distance_clamp {td : TripData} {d : ℚ}
    (hd : td.distance_km = some d) (hgt : MAX_TRIP_DISTANCE_KM < d) :
    (validate_trip_data td).1.distance_km = some MAX_TRIP_DISTANCE_KM := by
  show (speedStep (durationStep (distanceStep td)).1).1.distance_km = _
  rw [speedStep_distance, durationStep_distance]
  unfold distanceStep
  rw [hd]
  dsimp only
  rw [if_neg fun hcon => absurd hcon.2 (not_le.mpr hgt), if_pos hgt]

theorem validate_speed_clamp {td : TripData} {s : ℚ}
    (hs : td.avg_speed_kmph = some s) (hgt : 300 < s) :
    (validate_trip_data td).1.avg_speed_kmph = some 200 := by
  show (speedStep (durationStep (distanceStep td)).1).1.avg_speed_kmph = _
  have hs2 : (durationStep (distanceStep td)).1.avg_speed_kmph = some s := by
    rw [durationStep_speed, distanceStep_speed, hs]
  unfold speedStep
  rw [hs2]
  dsimp only
  rw [if_neg fun hcon => absurd hcon.2 (not_le.mpr hgt), if_pos hgt]
  show some (min s 200) = some 200
  rw [min_eq_right (by linarith)]

/-- C4: `validate_trip_data` clamps a distance above `MAX_TRIP_DISTANCE_KM`
to that maximum in place without rejecting, and a record is valid exactly
when all five required fields are present, the duration (if any) is not
below `MIN_TRIP_DURATION_MINUTES`, and the average speed (if any) is not
negative — so a short duration or a missing required field rejects, and an
over-long distance never does. -/
theorem validate_trip_data_spec (td : TripData) :
    (∀ d, td.distance_km = some d → MAX_TRIP_DISTANCE_KM < d →
        (validate_trip_data td).1.distance_km = some MAX_TRIP_DISTANCE_KM) ∧
    ((validate_trip_data td).2.1 = true ↔
        RequiredPresent td ∧ DurationOK td ∧ SpeedOK td) :=
  ⟨fun _ hd hgt => validate_distance_clamp hd hgt, validate_valid_iff td⟩

theorem validate_trip_data_spec_witness :
    (validate_trip_data ⟨some 7, some 0, some 2500, some 60, some "Good", some 10⟩).1.distance_km
        = some MAX_TRIP_DISTANCE_KM ∧
    (validate_trip_data ⟨some 7, some 0, some 2500, some 60, some "Good", some 10⟩).2.1
        = true := by
  constructor
  · exact (validate_trip_data_spec _).1 2500 rfl (by norm_num [MAX_TRIP_DISTANCE_KM])
  · refine (validate_trip_data_spec _).2.mpr ⟨⟨rfl, rfl, rfl, rfl, rfl⟩, ?_, ?_⟩
    · intro u hu
      cases hu
      norm_num [MIN_TRIP_DURATION_MINUTES]
    · intro s hs
      cases hs
      norm_num

/-- A record with every required field present, an average speed of 400 km/h,
and a trip duration of 1 minute (below the 2-minute hard minimum). -/
def tdSpeed400 : TripData :=
  ⟨some 1, some 0, some 10, some 400, some "Good", some 1⟩

/-- C9 counterexample: a record with all required fields and avg speed above
300 is nevertheless rejected when its duration independently fails the hard
minimum, so "returns the record as valid" does not hold as stated. -/
theorem validate_speed_over300_counterexample :
    RequiredPresent tdSpeed400 ∧ tdSpeed400.avg_speed_kmph = some 400 ∧
    (300 : ℚ) < 400 ∧ (validate_trip_data tdSpeed400).2.1 = false := by
  refine ⟨⟨rfl, rfl, rfl, rfl, rfl⟩, rfl, by norm_num, ?_⟩
  apply eq_false_of_ne_true
  intro htrue
  have h := ((validate_valid_iff tdSpeed400).mp htrue).2.1 1 rfl
  norm_num [MIN_TRIP_DURATION_MINUTES] at h

/-- C9 (amended): an average speed above 300 never causes rejection and is
mutated to exactly 200 (not the 300 bound); provided the record has all
required fields and the duration does not independently reject, the record
is returned as valid.  A negative average speed adds an error and rejects. -/
theorem validate_speed_over300_amended (td : TripData) :
    (∀ s, td.avg_speed_kmph = some s → 300 < s →
        (validate_trip_data td).1.avg_speed_kmph = some 200 ∧
        (RequiredPresent td → DurationOK td → (validate_trip_data td).2.1 = true)) ∧
    (∀ s, td.avg_speed_kmph = some s → s < 0 →
        (validate_trip_data td).2.1 = false) := by
  constructor
  · intro s hs hgt
    refine ⟨validate_speed_clamp hs hgt, fun hr hd => ?_⟩
    refine (validate_valid_iff td).mpr ⟨hr, hd, ?_⟩
    intro v hv
    rw [hs] at hv
    cases hv
    linarith
  · intro s hs hneg
    apply eq_false_of_ne_true
    intro htrue
    have h := ((validate_valid_iff td).mp htrue).2.2 s hs
    linarith

theorem validate_speed_over300_amended_witness :
    (validate_trip_data ⟨some 7, some 0, some 10, some 400, some "Good", some 10⟩).1.avg_speed_kmph
        = some 200 ∧
    (validate_trip_data ⟨some 7, some 0, some 10, some 400, some "Good", some 10⟩).2.1
        = true := by
  obtain ⟨h1, h2⟩ :=
    (validate_speed_over300_amended
      ⟨some 7, some 0, some 10, some 400, some "Good", some 10⟩).1 400 rfl (by norm_num)
  refine ⟨h1, h2 ⟨rfl, rfl, rfl, rfl, rfl⟩ ?_⟩
  intro u hu
  cases hu
  norm_num [MIN_TRIP_DURATION_MINUTES]

/-! ### Trip boundary detection
`detect_trip_boundaries` (lines 395-482).  A table is modelled by its row
list plus one flag per column the function reads (`'timestamp' in
df.columns` etc.); each cell holds the result of the corresponding parse
(`pd.to_datetime` / `pd.to_numeric` with `errors='coerce'`), `none` for
NaT/NaN.  Timestamps are the int64 nanosecond values pandas stores for
`datetime64[ns]`, so timestamp differences are exact integers; the other
numeric cells are rationals.

Two facts about the source justify embedding the three methods as separate
functions tried in order from a clean state: (a) every
`trip_boundaries.append` in one method is followed by a return as soon as
`trip_boundaries` is non-empty at the end of that method, and
`current_start` is only ever changed next to an append, so a method that
falls through to the next leaves `trip_boundaries == []` and
`current_start == 0`; (b) `pd.to_datetime(..., errors='coerce')` does not
raise, so the `except` arm of method 1 is dead. -/

def TIMESTAMP_GAP_THRESHOLD_MINUTES : ℕ := 30

def ZERO_SPEED_THRESHOLD_POINTS : ℤ := 50

/-- `pd.Timedelta(minutes=30)` in integer nanoseconds, the unit in which
pandas stores `datetime64[ns]` values and their differences. -/
def gapThresholdNs : ℤ := TIMESTAMP_GAP_THRESHOLD_MINUTES * 60 * 1000000000

structure Row where
  timestamp : Option ℤ
  speed : Option ℚ
  trip_distance : Option ℚ
deriving DecidableEq

structure Table where
  rows : List Row
  hasTimestamp : Bool
  hasSpeed : Bool
  hasDist : Bool
deriving DecidableEq

/-- `time_diffs > pd.Timedelta(minutes=30)` at row `i`:  true only when both
rows parse (a NaT diff compares as False) and `i ≥ 1` (`diff()` leaves NaT
at row 0). -/
def tsGapAt (ts : List (Option ℤ)) : Nat → Bool
  | 0 => false
  | j + 1 =>
    match ts.getD j none, ts.getD (j + 1) none with
    | some a, some b => decide (gapThresholdNs < b - a)
    | _, _ => false

/-- `distance_num.diff() < -1` at row `i`, after `fillna(0)` on the values;
row 0's diff is NaN and compares as False. -/
def distResetAt (ds : List (Option ℚ)) : Nat → Bool
  | 0 => false
  | j + 1 => decide ((ds.getD (j + 1) none).getD 0 - (ds.getD j none).getD 0 < -1)

/-- The gap loop shared (textually) by methods 1 and 3:
```
for gap_idx in gap_indices:
    if gap_idx > current_start:
        trip_boundaries.append((current_start, gap_idx - 1))
        current_start = gap_idx
```
The state is `(trip_boundaries, current_start)`, started at `([], 0)`. -/
def boundaryFold (gaps : List Nat) : List (Nat × Nat) × Nat :=
  gaps.foldl (fun p g => if p.2 < g then (p.1 ++ [(p.2, g - 1)], g) else p) ([], 0)

/-- The shared epilogue `if current_start < len(df) - 1:
trip_boundaries.append((current_start, len(df) - 1))`. -/
def finishTrips (p : List (Nat × Nat) × Nat) (n : Nat) : List (Nat × Nat) :=
  if p.2 < n - 1 then p.1 ++ [(p.2, n - 1)] else p.1

/-- Method 1 (lines 404-427), given a timestamp column with at least one
parseable value. -/
def tsBoundaries (ts : List (Option ℤ)) : List (Nat × Nat) :=
  finishTrips (boundaryFold ((List.range ts.length).filter (tsGapAt ts))) ts.length

/-- Method 3 (lines 461-478), given a `trip_distance` column. -/
def distBoundaries (ds : List (Option ℚ)) : List (Nat × Nat) :=
  finishTrips (boundaryFold ((List.range ds.length).filter (distResetAt ds))) ds.length

/-- `zero_speed = speed_num <= 1` at row `i` (`fillna(0)` first). -/
def zeroAt (sp : List (Option ℚ)) (i : Nat) : Bool :=
  decide ((sp.getD i none).getD 0 ≤ 1)

/-- Method 2 (lines 429-458).  `zero_starts`/`zero_ends` are the indices
where `zero_speed.astype(int).diff().fillna(0)` equals `+1` / `-1`; the
`enumerate` loop pairs `zero_starts[i]` with `zero_ends[i]` and skips the
tail of `zero_starts` past `len(zero_ends)`, which is exactly a fold over
`zip zero_starts zero_ends`.  `stop_duration = end - start` is a Python int,
modelled in `ℤ`. -/
def speedBoundaries (sp : List (Option ℚ)) : List (Nat × Nat) :=
  let n := sp.length
  let zero_starts := (List.range n).filter fun i =>
    decide (i ≠ 0) && zeroAt sp i && !(zeroAt sp (i - 1))
  let zero_ends0 := (List.range n).filter fun i =>
    decide (i ≠ 0) && !(zeroAt sp i) && zeroAt sp (i - 1)
  let zero_ends :=
    if zero_ends0.length < zero_starts.length then zero_ends0 ++ [n - 1] else zero_ends0
  let q := (zero_starts.zip zero_ends).foldl
    (fun (p : List (Nat × Nat) × Nat) (se : Nat × Nat) =>
      if ZERO_SPEED_THRESHOLD_POINTS < (se.2 : ℤ) - (se.1 : ℤ) ∧ p.2 < se.1 then
        (p.1 ++ [(p.2, se.1 - 1)], se.2 + 1)
      else p) ([], 0)
  finishTrips q n

/-- Method 1 applies when the timestamp column exists and at least one entry
parses (`not timestamp_col.isnull().all()`). -/
def tsUsable (t : Table) : Bool :=
  t.hasTimestamp && (t.rows.map Row.timestamp).any Option.isSome

/-- `detect_trip_boundaries`: the tiered chooser.  The empty table returns
`[]` up front; each method is consulted only when its column is available,
and its result is returned when non-empty. -/
def detect_trip_boundaries (t : Table) : List (Nat × Nat) :=
  if t.rows.length = 0 then []
  else
    let r1 := if tsUsable t then tsBoundaries (t.rows.map Row.timestamp) else []
    if r1 ≠ [] then r1
    else
      let r2 := if t.hasSpeed then speedBoundaries (t.rows.map Row.speed) else []
      if r2 ≠ [] then r2
      else
        let r3 := if t.hasDist then distBoundaries (t.rows.map Row.trip_distance) else []
        if r3 ≠ [] then r3
        else [(0, t.rows.length - 1)]

/-- Invariant carried through the boundary loops: each recorded segment is
ordered and ends before row `n`, segments are strictly ordered and disjoint,
and every recorded segment ends before the running `current_start`. -/
def BoundState (n : Nat) (acc : List (Nat × Nat) × Nat) : Prop :=
  (∀ p ∈ acc.1, p.1 ≤ p.2 ∧ p.2 + 1 ≤ n) ∧
  acc.1.Pairwise (fun p q => p.2 < q.1) ∧
  ∀ p ∈ acc.1, p.2 < acc.2

theorem foldl_boundState {α : Type} (n : Nat) (Q : α → Prop)
    (step : List (Nat × Nat) × Nat → α → List (Nat × Nat) × Nat)
    (hstep : ∀ acc x, Q x → BoundState n acc → BoundState n (step acc x)) :
    ∀ (xs : List α) (acc), (∀ x ∈ xs, Q x) → BoundState n acc →
      BoundState n (List.foldl step acc xs)
  | [], _, _, h => h
  | x :: xs, acc, hq, h =>
    foldl_boundState n Q step hstep xs (step acc x)
      (fun y hy => hq y (by simp [hy]))
      (hstep acc x (hq x (by simp)) h)

theorem gapStep_boundState {n : Nat} {acc : List (Nat × Nat) × Nat} {g : Nat}
    (hg : g < n) (h : BoundState n acc) :
    BoundState n (if acc.2 < g then (acc.1 ++ [(acc.2, g - 1)], g) else acc) := by
  obtain ⟨h1, h2, h3⟩ := h
  split_ifs with hlt
  · refine ⟨?_, ?_, ?_⟩
    · intro p hp
      rcases List.mem_append.mp hp with hp | hp
      · exact h1 p hp
      · simp only [List.mem_singleton] at hp
        subst hp
        constructor <;> omega
    · rw [List.pairwise_append]
      refine ⟨h2, List.pairwise_singleton _ _, ?_⟩
      intro a ha b hb
      simp only [List.mem_singleton] at hb
      subst hb
      exact h3 a ha
    · intro p hp
      rcases List.mem_append.mp hp with hp | hp
      · exact lt_trans (h3 p hp) hlt
      · simp only [List.mem_singleton] at hp
        subst hp
        dsimp only
        omega
  · exact ⟨h1, h2, h3⟩

theorem stopStep_boundState {n : Nat} {acc : List (Nat × Nat) × Nat}
    {se : Nat × Nat} (hs : se.1 < n) (h : BoundState n acc) :
    BoundState n
      (if ZERO_SPEED_THRESHOLD_POINTS < (se.2 : ℤ) - (se.1 : ℤ) ∧ acc.2 < se.1 then
        (acc.1 ++ [(acc.2, se.1 - 1)], se.2 + 1)
      else acc) := by
  obtain ⟨h1, h2, h3⟩ := h
  split_ifs with hlt
  · obtain ⟨hdur, hcs⟩ := hlt
    have hse : se.1 < se.2 := by
      unfold ZERO_SPEED_THRESHOLD_POINTS at hdur
      omega
    refine ⟨?_, ?_, ?_⟩
    · intro p hp
      rcases List.mem_append.mp hp with hp | hp
      · exact h1 p hp
      · simp only [List.mem_singleton] at hp
        subst hp
        constructor <;> omega
    · rw [List.pairwise_append]
      refine ⟨h2, List.pairwise_singleton _ _, ?_⟩
      intro a ha b hb
      simp only [List.mem_singleton] at hb
      subst hb
      exact h3 a ha
    · intro p hp
      rcases List.mem_append.mp hp with hp | hp
      · have := h3 p hp
        omega
      · simp only [List.mem_singleton] at hp
        subst hp
        dsimp only
        omega
  · exact ⟨h1, h2, h3⟩

theorem finishTrips_wf {n : Nat} {acc : List (Nat × Nat) × Nat}
    (h : BoundState n acc) :
    (∀ p ∈ finishTrips acc n, p.1 ≤ p.2 ∧ p.2 + 1 ≤ n) ∧
    (finishTrips acc n).Pairwise (fun p q => p.2 < q.1) := by
  obtain ⟨h1, h2, h3⟩ := h
  unfold finishTrips
  split_ifs with hlt
  · constructor
    · intro p hp
      rcases List.mem_append.mp hp with hp | hp
      · exact h1 p hp
      · simp only [List.mem_singleton] at hp
        subst hp
        constructor <;> omega
    · rw [List.pairwise_append]
      refine ⟨h2, List.pairwise_singleton _ _, ?_⟩
      intro a ha b hb
      simp only [List.mem_singleton] at hb
      subst hb
      exact h3 a ha
  · exact ⟨h1, h2⟩

theorem boundState_nil (n : Nat) (cs : Nat) : BoundState n ([], cs) :=
  ⟨by simp, by simp, by simp⟩

theorem tsBoundaries_wf (ts : List (Option ℤ)) :
    (∀ p ∈ tsBoundaries ts, p.1 ≤ p.2 ∧ p.2 + 1 ≤ ts.length) ∧
    (tsBoundaries ts).Pairwise (fun p q => p.2 < q.1) := by
  apply finishTrips_wf
  apply foldl_boundState ts.length (fun g => g < ts.length)
  · intro acc g hg h
    exact gapStep_boundState hg h
  · intro g hg
    exact List.mem_range.mp (List.mem_filter.mp hg).1
  · exact boundState_nil _ _

theorem distBoundaries_wf (ds : List (Option ℚ)) :
    (∀ p ∈ distBoundaries ds, p.1 ≤ p.2 ∧ p.2 + 1 ≤ ds.length) ∧
    (distBoundaries ds).Pairwise (fun p q => p.2 < q.1) := by
  apply finishTrips_wf
  apply foldl_boundState ds.length (fun g => g < ds.length)
  · intro acc g hg h
    exact gapStep_boundState hg h
  · intro g hg
    exact List.mem_range.mp (List.mem_filter.mp hg).1
  · exact boundState_nil _ _

theorem speedBoundaries_wf (sp : List (Option ℚ)) :
    (∀ p ∈ speedBoundaries sp, p.1 ≤ p.2 ∧ p.2 + 1 ≤ sp.length) ∧
    (speedBoundaries sp).Pairwise (fun p q => p.2 < q.1) := by
  unfold speedBoundaries
  apply finishTrips_wf
  apply foldl_boundState sp.length (fun se => se.1 < sp.length)
  · intro acc se hse h
    exact stopStep_boundState hse h
  · intro se hse
    have h1 := (List.of_mem_zip hse).1
    exact List.mem_range.mp (List.mem_filter.mp h1).1
  · exact boundState_nil _ _

/-- C2: every segment returned by `detect_trip_boundaries` on a table with
`row_count` rows satisfies `start ≤ end ≤ row_count - 1` (indices are `Nat`,
so `0 ≤ start` holds by type), and the returned segments are strictly
ordered and pairwise non-overlapping (each segment ends before the next
begins). -/
theorem detect_trip_boundaries_wellformed (t : Table) :
    (∀ p ∈ detect_trip_boundaries t, p.1 ≤ p.2 ∧ p.2 + 1 ≤ t.rows.length) ∧
    (detect_trip_boundaries t).Pairwise (fun p q => p.2 < q.1) := by
  unfold detect_trip_boundaries
  by_cases h0 : t.rows.length = 0
  · rw [if_pos h0]
    exact ⟨by simp, by simp⟩
  · rw [if_neg h0]
    have hts : (∀ p ∈ tsBoundaries (t.rows.map Row.timestamp),
        p.1 ≤ p.2 ∧ p.2 + 1 ≤ t.rows.length) ∧
        (tsBoundaries (t.rows.map Row.timestamp)).Pairwise (fun p q => p.2 < q.1) := by
      have h := tsBoundaries_wf (t.rows.map Row.timestamp)
      rwa [List.length_map] at h
    have hsp : (∀ p ∈ speedBoundaries (t.rows.map Row.speed),
        p.1 ≤ p.2 ∧ p.2 + 1 ≤ t.rows.length) ∧
        (speedBoundaries (t.rows.map Row.speed)).Pairwise (fun p q => p.2 < q.1) := by
      have h := speedBoundaries_wf (t.rows.map Row.speed)
      rwa [List.length_map] at h
    have hds : (∀ p ∈ distBoundaries (t.rows.map Row.trip_distance),
        p.1 ≤ p.2 ∧ p.2 + 1 ≤ t.rows.length) ∧
        (distBoundaries (t.rows.map Row.trip_distance)).Pairwise (fun p q => p.2 < q.1) := by
      have h := distBoundaries_wf (t.rows.map Row.trip_distance)
      rwa [List.length_map] at h
    have hfb : (∀ p ∈ [(0, t.rows.length - 1)],
        p.1 ≤ p.2 ∧ p.2 + 1 ≤ t.rows.length) ∧
        ([(0, t.rows.length - 1)]).Pairwise (fun p q : Nat × Nat => p.2 < q.1) := by
      constructor
      · intro p hp
        simp only [List.mem_singleton] at hp
        subst hp
        constructor
        · omega
        · omega
      · exact List.pairwise_singleton _ _
    by_cases hc1 : (if tsUsable t then tsBoundaries (t.rows.map Row.timestamp) else []) ≠ []
    · rw [if_pos hc1]
      split_ifs
      · exact hts
      · exact ⟨by simp, by simp⟩
    · rw [if_neg hc1]
      by_cases hc2 : (if t.hasSpeed then speedBoundaries (t.rows.map Row.speed) else []) ≠ []
      · rw [if_pos hc2]
        split_ifs
        · exact hsp
        · exact ⟨by simp, by simp⟩
      · rw [if_neg hc2]
        by_cases hc3 :
            (if t.hasDist then distBoundaries (t.rows.map Row.trip_distance) else []) ≠ []
        · rw [if_pos hc3]
          split_ifs
          · exact hds
          · exact ⟨by simp, by simp⟩
        · rw [if_neg hc3]
          exact hfb

/-! #### Which strategy answers: nonemptiness of each method on `n ≥ 2` rows -/

theorem foldl_fst_ne_nil {α : Type}
    (step : List (Nat × Nat) × Nat → α → List (Nat × Nat) × Nat)
    (hkeep : ∀ acc x, acc.1 ≠ [] → (step acc x).1 ≠ []) :
    ∀ (xs : List α) (acc), acc.1 ≠ [] → (List.foldl step acc xs).1 ≠ []
  | [], _, h => h
  | x :: xs, acc, h =>
    foldl_fst_ne_nil step hkeep xs (step acc x) (hkeep acc x h)

theorem foldl_nil_fixed {α : Type}
    (step : List (Nat × Nat) × Nat → α → List (Nat × Nat) × Nat)
    (hid : ∀ acc x, step acc x = acc ∨ (step acc x).1 ≠ [])
    (hkeep : ∀ acc x, acc.1 ≠ [] → (step acc x).1 ≠ []) :
    ∀ (xs : List α) (acc : List (Nat × Nat) × Nat),
      (List.foldl step acc xs).1 = [] → List.foldl step acc xs = acc
  | [], _, _ => rfl
  | x :: xs, acc, h => by
    rcases hid acc x with heq | hne
    · rw [List.foldl_cons, heq] at h ⊢
      exact foldl_nil_fixed step hid hkeep xs acc h
    · exfalso
      rw [List.foldl_cons] at h
      exact foldl_fst_ne_nil step hkeep xs (step acc x) hne h

theorem gapStep_id_or_ne (acc : List (Nat × Nat) × Nat) (g : Nat) :
    (if acc.2 < g then (acc.1 ++ [(acc.2, g - 1)], g) else acc) = acc ∨
    (if acc.2 < g then (acc.1 ++ [(acc.2, g - 1)], g) else acc).1 ≠ [] := by
  split_ifs
  · right; simp
  · left; rfl

theorem gapStep_keep_ne (acc : List (Nat × Nat) × Nat) (g : Nat)
    (h : acc.1 ≠ []) :
    (if acc.2 < g then (acc.1 ++ [(acc.2, g - 1)], g) else acc).1 ≠ [] := by
  split_ifs
  · simp
  · exact h

theorem boundaryFold_empty (gaps : List Nat) (h : (boundaryFold gaps).1 = []) :
    boundaryFold gaps = ([], 0) := by
  unfold boundaryFold at *
  exact foldl_nil_fixed _ gapStep_id_or_ne gapStep_keep_ne gaps ([], 0) h

theorem stopStep_id_or_ne (acc : List (Nat × Nat) × Nat) (se : Nat × Nat) :
    (if ZERO_SPEED_THRESHOLD_POINTS < (se.2 : ℤ) - (se.1 : ℤ) ∧ acc.2 < se.1 then
        (acc.1 ++ [(acc.2, se.1 - 1)], se.2 + 1) else acc) = acc ∨
    (if ZERO_SPEED_THRESHOLD_POINTS < (se.2 : ℤ) - (se.1 : ℤ) ∧ acc.2 < se.1 then
        (acc.1 ++ [(acc.2, se.1 - 1)], se.2 + 1) else acc).1 ≠ [] := by
  split_ifs
  · right; simp
  · left; rfl

theorem stopStep_keep_ne (acc : List (Nat × Nat) × Nat) (se : Nat × Nat)
    (h : acc.1 ≠ []) :
    (if ZERO_SPEED_THRESHOLD_POINTS < (se.2 : ℤ) - (se.1 : ℤ) ∧ acc.2 < se.1 then
        (acc.1 ++ [(acc.2, se.1 - 1)], se.2 + 1) else acc).1 ≠ [] := by
  split_ifs
  · simp
  · exact h

theorem finish_ne_nil {n : Nat} (q : List (Nat × Nat) × Nat) (h2 : 2 ≤ n)
    (hq : q.1 = [] → q.2 = 0) : finishTrips q n ≠ [] := by
  unfold finishTrips
  by_cases h : q.1 = []
  · have h0 := hq h
    rw [if_pos (by omega), h]
    simp
  · split_ifs
    · simp
    · exact h

theorem tsBoundaries_ne_nil {ts : List (Option ℤ)} (h2 : 2 ≤ ts.length) :
    tsBoundaries ts ≠ [] := by
  unfold tsBoundaries
  apply finish_ne_nil _ h2
  intro h
  rw [boundaryFold_empty _ h]

theorem distBoundaries_ne_nil {ds : List (Option ℚ)} (h2 : 2 ≤ ds.length) :
    distBoundaries ds ≠ [] := by
  unfold distBoundaries
  apply finish_ne_nil _ h2
  intro h
  rw [boundaryFold_empty _ h]

theorem speedBoundaries_ne_nil {sp : List (Option ℚ)} (h2 : 2 ≤ sp.length) :
    speedBoundaries sp ≠ [] := by
  unfold speedBoundaries
  apply finish_ne_nil _ h2
  intro h
  rw [foldl_nil_fixed _ stopStep_id_or_ne stopStep_keep_ne _ ([], 0) h]

theorem tsBoundaries_len_one {ts : List (Option ℤ)} (h : ts.length = 1) :
    tsBoundaries ts = [] := by
  unfold tsBoundaries
  rw [h]
  rfl

theorem distBoundaries_len_one {ds : List (Option ℚ)} (h : ds.length = 1) :
    distBoundaries ds = [] := by
  unfold distBoundaries
  rw [h]
  rfl

theorem speedBoundaries_len_one {sp : List (Option ℚ)} (h : sp.length = 1) :
    speedBoundaries sp = [] := by
  unfold speedBoundaries
  rw [h]
  rfl

/-- C1 (amended): the strategies are tried in the fixed priority order
timestamp-gap, zero-speed, distance-reset, whole-file, but a strategy is
passed over only when its input column is unusable (timestamp absent or
never parsing; speed / distance column absent) or the table has fewer than
two rows — not when it finds no gap: with a usable timestamp column and at
least two rows the timestamp method always emits at least the whole-tail
segment and its result is returned even when no inter-row gap exceeds the
threshold; a single-row table always falls through to the whole-file
fallback. -/
theorem detect_trip_boundaries_tiered (t : Table) :
    (2 ≤ t.rows.length → tsUsable t = true →
        detect_trip_boundaries t = tsBoundaries (t.rows.map Row.timestamp)) ∧
    (2 ≤ t.rows.length → tsUsable t = false → t.hasSpeed = true →
        detect_trip_boundaries t = speedBoundaries (t.rows.map Row.speed)) ∧
    (2 ≤ t.rows.length → tsUsable t = false → t.hasSpeed = false → t.hasDist = true →
        detect_trip_boundaries t = distBoundaries (t.rows.map Row.trip_distance)) ∧
    (2 ≤ t.rows.length → tsUsable t = false → t.hasSpeed = false → t.hasDist = false →
        detect_trip_boundaries t = [(0, t.rows.length - 1)]) ∧
    (t.rows.length = 1 → detect_trip_boundaries t = [(0, 0)]) ∧
    (t.rows.length = 0 → detect_trip_boundaries t = []) := by
  refine ⟨?_, ?_, ?_, ?_, ?_, ?_⟩
  · intro h2 ht
    have h0 : ¬ t.rows.length = 0 := by omega
    have hts0 : tsBoundaries (t.rows.map Row.timestamp) ≠ [] :=
      tsBoundaries_ne_nil (by rwa [List.length_map])
    unfold detect_trip_boundaries
    rw [if_neg h0]
    simp only [ht, if_true]
    rw [if_pos hts0]
  · intro h2 ht hs
    have h0 : ¬ t.rows.length = 0 := by omega
    have hsp0 : speedBoundaries (t.rows.map Row.speed) ≠ [] :=
      speedBoundaries_ne_nil (by rwa [List.length_map])
    unfold detect_trip_boundaries
    rw [if_neg h0]
    simp only [ht, hs, if_true, if_false]
    rw [if_neg (fun hcon => hcon rfl), if_pos hsp0]
  · intro h2 ht hs hd
    have h0 : ¬ t.rows.length = 0 := by omega
    have hds0 : distBoundaries (t.rows.map Row.trip_distance) ≠ [] :=
      distBoundaries_ne_nil (by rwa [List.length_map])
    unfold detect_trip_boundaries
    rw [if_neg h0]
    simp only [ht, hs, hd, if_true, if_false]
    rw [if_neg (fun hcon => hcon rfl), if_neg (fun hcon => hcon rfl), if_pos hds0]
  · intro h2 ht hs hd
    have h0 : ¬ t.rows.length = 0 := by omega
    unfold detect_trip_boundaries
    rw [if_neg h0]
    simp only [ht, hs, hd, if_false]
    rw [if_neg (fun hcon => hcon rfl), if_neg (fun hcon => hcon rfl),
      if_neg (fun hcon => hcon rfl)]
  · intro h1
    have h0 : ¬ t.rows.length = 0 := by omega
    have hts1 : tsBoundaries (t.rows.map Row.timestamp) = [] :=
      tsBoundaries_len_one (by rwa [List.length_map])
    have hsp1 : speedBoundaries (t.rows.map Row.speed) = [] :=
      speedBoundaries_len_one (by rwa [List.length_map])
    have hds1 : distBoundaries (t.rows.map Row.trip_distance) = [] :=
      distBoundaries_len_one (by rwa [List.length_map])
    unfold detect_trip_boundaries
    rw [if_neg h0, h1]
    have e1 : (if tsUsable t then tsBoundaries (t.rows.map Row.timestamp) else [])
        = ([] : List (Nat × Nat)) := by
      split_ifs <;> simp [hts1]
    have e2 : (if t.hasSpeed then speedBoundaries (t.rows.map Row.speed) else [])
        = ([] : List (Nat × Nat)) := by
      split_ifs <;> simp [hsp1]
    have e3 : (if t.hasDist then distBoundaries (t.rows.map Row.trip_distance) else [])
        = ([] : List (Nat × Nat)) := by
      split_ifs <;> simp [hds1]
    rw [e1, if_neg (fun hcon => hcon rfl), e2, if_neg (fun hcon => hcon rfl),
      e3, if_neg (fun hcon => hcon rfl)]
  · intro h0
    unfold detect_trip_boundaries
    rw [if_pos h0]

/-- A 60-row table whose timestamps are one nanosecond apart (so no inter-row
gap reaches 30 minutes) and whose speed column holds a 52-row stop at rows
5-56; it has a timestamp column and a speed column and no distance column. -/
def cexRows : List Row :=
  ((List.range 5).map fun i => ⟨some (i : ℤ), some 50, none⟩) ++
  ((List.range 52).map fun i => ⟨some ((i : ℤ) + 5), some 0, none⟩) ++
  ((List.range 3).map fun i => ⟨some ((i : ℤ) + 57), some 50, none⟩)

def cexTable : Table := ⟨cexRows, true, true, false⟩

/-- C1 counterexample: the timestamp column of `cexTable` has no gap over
the threshold — the timestamp-gap strategy finds no boundary — and a speed
column exists, yet the detector's answer is the timestamp method's
whole-file segment `[(0, 59)]`, not the zero-speed strategy's answer
`[(0, 4), (58, 59)]`. -/
theorem detect_no_gap_counterexample :
    ((List.range cexTable.rows.length).filter
        (tsGapAt (cexTable.rows.map Row.timestamp))) = [] ∧
    cexTable.hasSpeed = true ∧
    speedBoundaries (cexTable.rows.map Row.speed) = [(0, 4), (58, 59)] ∧
    detect_trip_boundaries cexTable = [(0, 59)] ∧
    detect_trip_boundaries cexTable ≠ speedBoundaries (cexTable.rows.map Row.speed) := by
  refine ⟨by decide, rfl, by decide, by decide, by decide⟩

theorem detect_trip_boundaries_tiered_witness :
    2 ≤ cexTable.rows.length ∧ tsUsable cexTable = true ∧
    detect_trip_boundaries cexTable = tsBoundaries (cexTable.rows.map Row.timestamp) := by
  refine ⟨by decide, by decide, ?_⟩
  exact (detect_trip_boundaries_tiered cexTable).1 (by decide) (by decide)

/-! ### User id extraction
`extract_user_id` (lines 268-295): first numeric value of a `user_id`
column when present, else a `user/driver` number pattern found in the
lower-cased filename, else `(int(md5(filename).hexdigest()[:8], 16) % 1000)
+ 1`.  The MD5 of the Python standard library is embedded below in full
(RFC 1321), operating on the UTF-8 bytes of the filename; bytes and 32-bit
words are `Nat` with explicit `% 2^32`. -/

def md5K : List Nat := [
  0xd76aa478, 0xe8c7b756, 0x242070db, 0xc1bdceee,
  0xf57c0faf, 0x4787c62a, 0xa8304613, 0xfd469501,
  0x698098d8, 0x8b44f7af, 0xffff5bb1, 0x895cd7be,
  0x6b901122, 0xfd987193, 0xa679438e, 0x49b40821,
  0xf61e2562, 0xc040b340, 0x265e5a51, 0xe9b6c7aa,
  0xd62f105d, 0x02441453, 0xd8a1e681, 0xe7d3fbc8,
  0x21e1cde6, 0xc33707d6, 0xf4d50d87, 0x455a14ed,
  0xa9e3e905, 0xfcefa3f8, 0x676f02d9, 0x8d2a4c8a,
  0xfffa3942, 0x8771f681, 0x6d9d6122, 0xfde5380c,
  0xa4beea44, 0x4bdecfa9, 0xf6bb4b60, 0xbebfbc70,
  0x289b7ec6, 0xeaa127fa, 0xd4ef3085, 0x04881d05,
  0xd9d4d039, 0xe6db99e5, 0x1fa27cf8, 0xc4ac5665,
  0xf4292244, 0x432aff97, 0xab9423a7, 0xfc93a039,
  0x655b59c3, 0x8f0ccc92, 0xffeff47d, 0x85845dd1,
  0x6fa87e4f, 0xfe2ce6e0, 0xa3014314, 0x4e0811a1,
  0xf7537e82, 0xbd3af235, 0x2ad7d2bb, 0xeb86d391]

def md5S : List Nat := [
  0x00000007, 0x0000000c, 0x00000011, 0x00000016, 0x00000007, 0x0000000c, 0x00000011, 0x00000016,
  0x00000007, 0x0000000c, 0x00000011, 0x00000016, 0x00000007, 0x0000000c, 0x00000011, 0x00000016,
  0x00000005, 0x00000009, 0x0000000e, 0x00000014, 0x00000005, 0x00000009, 0x0000000e, 0x00000014,
  0x00000005, 0x00000009, 0x0000000e, 0x00000014, 0x00000005, 0x00000009, 0x0000000e, 0x00000014,
  0x00000004, 0x0000000b, 0x00000010, 0x00000017, 0x00000004, 0x0000000b, 0x00000010, 0x00000017,
  0x00000004, 0x0000000b, 0x00000010, 0x00000017, 0x00000004, 0x0000000b, 0x00000010, 0x00000017,
  0x00000006, 0x0000000a, 0x0000000f, 0x00000015, 0x00000006, 0x0000000a, 0x0000000f, 0x00000015,
  0x00000006, 0x0000000a, 0x0000000f, 0x00000015, 0x00000006, 0x0000000a, 0x0000000f, 0x00000015]

/-- Rotate a 32-bit word left by `s`. -/
def rotl32 (x s : Nat) : Nat :=
  ((x <<< s) % 2 ^ 32) ||| (x >>> (32 - s))

/-- Bitwise complement within 32 bits. -/
def not32 (x : Nat) : Nat := x ^^^ 0xffffffff

/-- Little-endian 32-bit word `j` of one 64-byte chunk. -/
def leWord (chunk : List Nat) (j : Nat) : Nat :=
  chunk.getD (4 * j) 0 + (chunk.getD (4 * j + 1) 0) <<< 8 +
    (chunk.getD (4 * j + 2) 0) <<< 16 + (chunk.getD (4 * j + 3) 0) <<< 24

/-- One of the 64 MD5 rounds. -/
def md5Round (M : Nat → Nat) (st : Nat × Nat × Nat × Nat) (i : Nat) :
    Nat × Nat × Nat × Nat :=
  let (A, B, C, D) := st
  let F :=
    if i < 16 then (B &&& C) ||| (not32 B &&& D)
    else if i < 32 then (D &&& B) ||| (not32 D &&& C)
    else if i < 48 then B ^^^ C ^^^ D
    else C ^^^ (B ||| not32 D)
  let g :=
    if i < 16 then i
    else if i < 32 then (5 * i + 1) % 16
    else if i < 48 then (3 * i + 5) % 16
    else (7 * i) % 16
  let Fv := (F + A + md5K.getD i 0 + M g) % 2 ^ 32
  (D, (B + rotl32 Fv (md5S.getD i 0)) % 2 ^ 32, B, C)

/-- Process one 64-byte chunk. -/
def md5Chunk (st : Nat × Nat × Nat × Nat) (chunk : List Nat) :
    Nat × Nat × Nat × Nat :=
  let r := (List.range 64).foldl (md5Round (leWord chunk)) st
  ((st.1 + r.1) % 2 ^ 32, (st.2.1 + r.2.1) % 2 ^ 32,
   (st.2.2.1 + r.2.2.1) % 2 ^ 32, (st.2.2.2 + r.2.2.2) % 2 ^ 32)

/-- The eight little-endian bytes of the 64-bit message bit length. -/
def leBytes8 (n : Nat) : List Nat :=
  (List.range 8).map fun k => (n >>> (8 * k)) % 256

/-- MD5 padding: `0x80`, zeros to 56 mod 64, then the bit length. -/
def md5Pad (msg : List Nat) : List Nat :=
  let z := (120 - (msg.length + 1) % 64) % 64
  msg ++ [0x80] ++ List.replicate z 0 ++ leBytes8 ((8 * msg.length) % 2 ^ 64)

/-- Split into 64-byte chunks (the input length is a multiple of 64). -/
def chunks64 : Nat → List Nat → List (List Nat)
  | 0, _ => []
  | _ + 1, [] => []
  | fuel + 1, l => l.take 64 :: chunks64 fuel (l.drop 64)

/-- The four 32-bit MD5 state words of a byte message. -/
def md5Words (msg : List Nat) : Nat × Nat × Nat × Nat :=
  let padded := md5Pad msg
  (chunks64 padded.length padded).foldl md5Chunk
    (0x67452301, 0xefcdab89, 0x98badcfe, 0x10325476)

/-- `int(hexdigest[:8], 16)`: the first eight hex characters of the digest
are the four little-endian bytes of the first state word read in print
order, i.e. the byte-swap of that word. -/
def md5Hex8 (msg : List Nat) : Nat :=
  let a := (md5Words msg).1
  ((a % 256) <<< 24) ||| (((a >>> 8) % 256) <<< 16) |||
    (((a >>> 16) % 256) <<< 8) ||| (a >>> 24)

/-- UTF-8 bytes of one character (`str.encode()`). -/
def utf8Bytes (c : Char) : List Nat :=
  let n := c.toNat
  if n < 0x80 then [n]
  else if n < 0x800 then [0xc0 ||| (n >>> 6), 0x80 ||| (n % 64)]
  else if n < 0x10000 then
    [0xe0 ||| (n >>> 12), 0x80 ||| ((n >>> 6) % 64), 0x80 ||| (n % 64)]
  else
    [0xf0 ||| (n >>> 18), 0x80 ||| ((n >>> 12) % 64),
     0x80 ||| ((n >>> 6) % 64), 0x80 ||| (n % 64)]

def strBytes (s : String) : List Nat := (s.data.map utf8Bytes).flatten

/-- Leading run of ASCII digits, as a number: the greedy `(\d+)` capture.
Returns `none` when the first character is not a digit. -/
def digitsVal (l : List Char) : Option Nat :=
  let ds := l.takeWhile Char.isDigit
  if ds.isEmpty then none
  else some (ds.foldl (fun a c => 10 * a + (c.toNat - 48)) 0)

/-- Drop a literal prefix, or fail. -/
def dropLit : List Char → List Char → Option (List Char)
  | [], s => some s
  | _ :: _, [] => none
  | c :: cs, x :: xs => if c = x then dropLit cs xs else none

/-- Match `lit` then (when `sep` is true) the regex tail `[_-]?(\d+)`, else
just `(\d+)`, at the start of `s`.  With backtracking, `[_-]?` consumes a
separator only when digits follow it; otherwise the digits must start
immediately. -/
def matchPatAt (lit : List Char) (sep : Bool) (s : List Char) : Option Nat :=
  match dropLit lit s with
  | none => none
  | some rest =>
    match rest with
    | x :: xs =>
      if sep ∧ (x = '_' ∨ x = '-') ∧ (digitsVal xs).isSome then digitsVal xs
      else digitsVal rest
    | [] => none

/-- `re.search`: the match at the leftmost starting position wins. -/
def searchPat (lit : List Char) (sep : Bool) : List Char → Option Nat
  | [] => none
  | c :: cs =>
    match matchPatAt lit sep (c :: cs) with
    | some v => some v
    | none => searchPat lit sep cs

/-- The four `user_patterns` of lines 279-281, tried in order on the
lower-cased filename. -/
def filenameUserId (f : String) : Option Nat :=
  (searchPat "user".data true (f.data.map lowerChar)).orElse fun _ =>
  (searchPat "driver".data true (f.data.map lowerChar)).orElse fun _ =>
  (searchPat "u".data false (f.data.map lowerChar)).orElse fun _ =>
  searchPat "d".data false (f.data.map lowerChar)

/-- `first_user.iloc[0]` after `pd.to_numeric(..., errors='coerce').dropna()`:
the first cell of the `user_id` column that parses as a number (cells are
modelled post-parse and post-`int()` truncation).  `none` when the column is
absent (`safe_series` returned `None`) or has no numeric cell. -/
def firstNumericVal (userCol : Option (List (Option Int))) : Option Int :=
  userCol.bind fun col => (col.filterMap id).head?

/-- `(int(md5(filename).hexdigest()[:8], 16) % 1000) + 1`. -/
def hashUserId (f : String) : Nat := md5Hex8 (strBytes f) % 1000 + 1

/-- `extract_user_id`, with the `user_id` column (when present) passed as
`userCol`. -/
def extract_user_id (userCol : Option (List (Option Int))) (f : String) : Int :=
  match firstNumericVal userCol with
  | some v => v
  | none =>
    match filenameUserId f with
    | some n => (n : Int)
    | none => (hashUserId f : Int)

/-- C7: `extract_user_id` returns the first numeric `user_id` cell when one
exists, else the number matched by a user/driver filename pattern, else the
hash-derived id, which always lies in `[1, 1000]` and — being a pure
function of the filename — is the same on every call. -/
theorem extract_user_id_spec (col : Option (List (Option Int))) (f : String) :
    (∀ v, firstNumericVal col = some v → extract_user_id col f = v) ∧
    (∀ n, firstNumericVal col = none → filenameUserId f = some n →
        extract_user_id col f = (n : Int)) ∧
    (firstNumericVal col = none → filenameUserId f = none →
        extract_user_id col f = (hashUserId f : Int)) ∧
    1 ≤ hashUserId f ∧ hashUserId f ≤ 1000 := by
  refine ⟨?_, ?_, ?_, ?_, ?_⟩
  · intro v hv
    unfold extract_user_id
    rw [hv]
  · intro n h1 h2
    unfold extract_user_id
    rw [h1, h2]
  · intro h1 h2
    unfold extract_user_id
    rw [h1, h2]
  · unfold hashUserId
    omega
  · unfold hashUserId
    have := Nat.mod_lt (md5Hex8 (strBytes f)) (show 0 < 1000 by norm_num)
    omega

theorem extract_user_id_spec_witness :
    extract_user_id (some [none, some 42]) "user_7.csv" = 42 ∧
    extract_user_id none "user_7.csv" = 7 ∧
    extract_user_id none "mystery.xlsx" = (hashUserId "mystery.xlsx" : Int) ∧
    1 ≤ hashUserId "mystery.xlsx" ∧ hashUserId "mystery.xlsx" ≤ 1000 := by
  have h := extract_user_id_spec (some [none, some 42]) "user_7.csv"
  have h2 := extract_user_id_spec none "user_7.csv"
  have h3 := extract_user_id_spec none "mystery.xlsx"
  exact ⟨h.1 42 rfl, h2.2.1 7 rfl (by decide), h3.2.2.1 rfl (by decide),
    h3.2.2.2.1, h3.2.2.2.2⟩

/-! ### Missing-field synthesis
`generate_realistic_field` (lines 485-544).  The two library RNG streams are
modelled as function parameters: `npNormal seed k` is the `k`-th standard
normal draw of the numpy stream after `np.random.seed(seed)` (so
`np.random.normal(0, sigma, length)` is `sigma * npNormal seed k` for
`k = 0, ..., length-1`), and `pyUniform seed k` is the `k`-th unit-uniform
draw of the `random` module after `random.seed(seed)` (so
`random.uniform(a, b)` is `a + (b-a) * pyUniform seed k`).  Python's salted
string hash is the parameter `hashStr`.  Both are fixed for one process, so
equality of the embedded outputs is run-to-run determinism. -/

structure Segment where
  index0 : Int
  speedCol : Option (List (Option ℚ))
  rowsLen : Nat
  otherCols : List (String × List (Option ℚ))

/-- `np.clip` on one value. -/
def clipQ (lo hi v : ℚ) : ℚ := min hi (max lo v)

/-- The in-place smoothing loop of the speed branch (lines 502-505): each
entry moves from its (already updated) predecessor by at most 5. -/
def smoothAux (prev : ℚ) : List ℚ → List ℚ
  | [] => []
  | x :: xs =>
    let cur := prev + clipQ (-5) 5 (x - prev)
    cur :: smoothAux cur xs

def smoothSteps : List ℚ → List ℚ
  | [] => []
  | p0 :: rest => p0 :: smoothAux p0 rest

/-- `generate_realistic_field`.  `seg.speedCol` is `safe_series(df_segment,
'speed')`; `seg.otherCols` holds every column the function never reads. -/
def generate_realistic_field (hashStr : String → Int)
    (npNormal : Nat → Nat → ℚ) (pyUniform : Int → Nat → ℚ)
    (field_name : String) (seg : Segment) : Option (List ℚ) :=
  if seg.rowsLen = 0 then none
  else
    let length := seg.rowsLen
    let seed_value : Int := (length : Int) + hashStr (toString seg.index0 ++ field_name)
    let nseed : Nat := (seed_value % (2 ^ 32 : Int)).toNat
    if field_name = "speed" then
      let base := 30 + 50 * pyUniform seed_value 0
      let raw := (List.range length).map fun k => max 0 (base + 15 * npNormal nseed k)
      some ((smoothSteps raw).map (clipQ 0 150))
    else if field_name = "rpm" then
      match seg.speedCol with
      | some col =>
        let m := 40 + 20 * pyUniform seed_value 0
        some ((List.range length).map fun k =>
          clipQ 600 7000 (800 + (col.getD k none).getD 30 * m + 200 * npNormal nseed k))
      | none =>
        let base := 1500 + 1500 * pyUniform seed_value 0
        some ((List.range length).map fun k =>
          clipQ 600 7000 (base + 500 * npNormal nseed k))
    else if field_name = "throttle" then
      match seg.speedCol with
      | some col =>
        some ((List.range length).map fun k =>
          let s := (col.getD k none).getD 0
          let c := if k = 0 then 0 else s - (col.getD (k - 1) none).getD 0
          let baseT := if 0 < c then c * 5 + 20 else max 10 (s * (3 / 10))
          clipQ 0 100 (baseT + 10 * npNormal nseed k))
      | none =>
        let base := 20 + 40 * pyUniform seed_value 0
        some ((List.range length).map fun k =>
          clipQ 0 100 (base + 20 * npNormal nseed k))
    else none

/-- C8: synthesis is deterministic — with the process's RNG streams and
string hash fixed, the output for each of `speed`, `rpm`, `throttle` is a
function of the segment's length, first index label and speed column alone,
so two identical segments (even ones carried in otherwise different tables)
receive identical synthetic series. -/
theorem generate_realistic_field_deterministic (hashStr : String → Int)
    (npNormal : Nat → Nat → ℚ) (pyUniform : Int → Nat → ℚ) (fname : String)
    (_hf : fname = "speed" ∨ fname = "rpm" ∨ fname = "throttle")
    (s1 s2 : Segment) (h0 : s1.index0 = s2.index0) (h1 : s1.rowsLen = s2.rowsLen)
    (h2 : s1.speedCol = s2.speedCol) :
    generate_realistic_field hashStr npNormal pyUniform fname s1
      = generate_realistic_field hashStr npNormal pyUniform fname s2 := by
  obtain ⟨i1, c1, n1, o1⟩ := s1
  obtain ⟨i2, c2, n2, o2⟩ := s2
  simp only at h0 h1 h2
  subst h0
  subst h1
  subst h2
  rfl

theorem generate_realistic_field_deterministic_witness :
    generate_realistic_field (fun _ => 7) (fun _ _ => 0) (fun _ _ => 1 / 2) "speed"
        ⟨0, some [some 3], 1, [("extra", [])]⟩
      = generate_realistic_field (fun _ => 7) (fun _ _ => 0) (fun _ _ => 1 / 2) "speed"
        ⟨0, some [some 3], 1, [("different", [some 1, none])]⟩ :=
  generate_realistic_field_deterministic _ _ _ "speed" (Or.inl rfl) _ _ rfl rfl rfl

/-! ### Batch orchestration
`process_file_with_error_handling` (lines 776-877) and `process_all_files`
(lines 880-976).  External effects are oracles carried by the job
description: the encoding-fallback read loop yields `load` (its final
re-raise and the `df is None` arm both produce an error value), the
user-creation side effect yields `ensureUser` (an exception there is caught
by the function's outer `try`), and for segment number `i`,
`process_trip_segment` yields `segOutcome i` (`(None, reason)` is an error)
and `db.add_trip` yields `dbInsert i`.  `pd.to_datetime(...)/to_numeric`
cannot raise, so inside one file the only control paths are the ones
modelled. -/

structure LoadedFile where
  tbl : Table
  ncols : Nat

structure FileJob where
  name : String
  load : Except String LoadedFile
  ensureUser : Except String Unit
  segOutcome : Nat → Except String TripData
  dbInsert : Nat → Except String Unit

/-- Outcome of one trip segment `(i, (start, end))` of a loaded file: the
too-short check (`df.iloc[start:end+1]` has `end+1-start` rows), then
`process_trip_segment`, then the insert; exactly one entry results. -/
def segOutcomeEntry (job : FileJob) (ib : Nat × (Nat × Nat)) :
    Sum (String × Nat) (String × String) :=
  let segName := job.name ++ "_trip_" ++ toString (ib.1 + 1)
  if ib.2.2 + 1 - ib.2.1 < 5 then .inr (segName, "Trip too short")
  else
    match job.segOutcome ib.1 with
    | .error msg => .inr (segName, msg)
    | .ok _ =>
      match job.dbInsert ib.1 with
      | .error msg => .inr (segName, "Database insertion failed: " ++ msg)
      | .ok _ => .inl (segName, 1)

/-- The body of the per-segment loop: route the segment's outcome to the
`processed_trips` or `errors` list and continue. -/
def segStep (job : FileJob) (acc : List (String × Nat) × List (String × String))
    (ib : Nat × (Nat × Nat)) : List (String × Nat) × List (String × String) :=
  match segOutcomeEntry job ib with
  | .inl p => (acc.1 ++ [p], acc.2)
  | .inr q => (acc.1, acc.2 ++ [q])

def process_file_with_error_handling (job : FileJob) :
    List (String × Nat) × List (String × String) :=
  match job.load with
  | .error msg => ([], [(job.name, msg)])
  | .ok lf =>
    if lf.tbl.rows.length = 0 ∨ lf.ncols = 0 then ([], [(job.name, "File is empty")])
    else if lf.ncols < 3 then ([], [(job.name, "Too few columns")])
    else
      match job.ensureUser with
      | .error msg => ([], [(job.name, msg)])
      | .ok _ =>
        (detect_trip_boundaries lf.tbl).enum.foldl (segStep job) ([], [])

/-- `error_summary or "No valid trips found"` for a file with no processed
trips. -/
def joinErrs (errs : List (String × String)) : String :=
  let s := String.intercalate "; " (errs.map (·.2))
  if s = "" then "No valid trips found" else s

structure BatchSummary where
  processed_files : List (String × Nat)
  skipped_files : List (String × String)
  total_trips : Nat
  total_files : Nat

/-- The per-file body of the main loop (lines 909-935): a file with at
least one processed trip goes to `processed_files`, any other file goes to
`skipped_files` with its joined error summary. -/
def processFile (acc : BatchSummary) (job : FileJob) : BatchSummary :=
  let r := process_file_with_error_handling job
  if r.1 ≠ [] then
    { acc with
      processed_files := acc.processed_files ++ [(job.name, r.1.length)],
      total_trips := acc.total_trips + r.1.length }
  else
    { acc with skipped_files := acc.skipped_files ++ [(job.name, joinErrs r.2)] }

/-- One configured dataset folder: `none` when `os.path.isdir` fails. -/
structure FolderJob where
  files : Option (List FileJob)

/-- The per-folder body: a missing folder and a folder with no data files
are both skipped with `continue`; otherwise the folder's files are counted
and processed in order. -/
def processFolder (acc : BatchSummary) (fj : FolderJob) : BatchSummary :=
  match fj.files with
  | none => acc
  | some files =>
    if files.isEmpty then acc
    else files.foldl processFile
      { acc with total_files := acc.total_files + files.length }

def process_all_files (folders : List FolderJob) : BatchSummary :=
  folders.foldl processFolder ⟨[], [], 0, 0⟩

theorem segFold_characterize (job : FileJob) :
    ∀ (xs : List (Nat × (Nat × Nat))) (a : List (String × Nat))
      (b : List (String × String)),
      xs.foldl (segStep job) (a, b)
        = (a ++ xs.filterMap (fun ib => (segOutcomeEntry job ib).getLeft?),
           b ++ xs.filterMap (fun ib => (segOutcomeEntry job ib).getRight?))
  | [], a, b => by simp
  | x :: xs, a, b => by
    rw [List.foldl_cons]
    cases hx : segOutcomeEntry job x with
    | inl p =>
      have hstep : segStep job (a, b) x = (a ++ [p], b) := by
        unfold segStep
        rw [hx]
      rw [hstep, segFold_characterize job xs (a ++ [p]) b]
      simp [List.filterMap_cons, hx, Sum.getLeft?, Sum.getRight?]
    | inr q =>
      have hstep : segStep job (a, b) x = (a, b ++ [q]) := by
        unfold segStep
        rw [hx]
      rw [hstep, segFold_characterize job xs a (b ++ [q])]
      simp [List.filterMap_cons, hx, Sum.getLeft?, Sum.getRight?]

theorem filterMap_sum_count {α β γ : Type} (f : γ → Sum α β) :
    ∀ xs : List γ,
      (xs.filterMap fun x => (f x).getLeft?).length
        + (xs.filterMap fun x => (f x).getRight?).length = xs.length
  | [] => rfl
  | x :: xs => by
    have ih := filterMap_sum_count f xs
    cases hx : f x <;>
      simp only [List.filterMap_cons, hx, Sum.getLeft?_inl, Sum.getLeft?_inr,
        Sum.getRight?_inl, Sum.getRight?_inr, List.length_cons] <;>
      omega

def fileEntry (j : FileJob) : Sum (String × Nat) (String × String) :=
  let r := process_file_with_error_handling j
  if r.1 ≠ [] then .inl (j.name, r.1.length) else .inr (j.name, joinErrs r.2)

def fileTrips (j : FileJob) : Nat := (process_file_with_error_handling j).1.length

theorem processFile_eq (acc : BatchSummary) (j : FileJob) :
    processFile acc j
      = ⟨acc.processed_files ++ ((fileEntry j).getLeft?).toList,
         acc.skipped_files ++ ((fileEntry j).getRight?).toList,
         acc.total_trips + fileTrips j,
         acc.total_files⟩ := by
  obtain ⟨P, S, T, F⟩ := acc
  unfold processFile fileEntry fileTrips
  dsimp only
  split_ifs with h
  · simp [Sum.getLeft?, Sum.getRight?]
  · have h0 : (process_file_with_error_handling j).1 = [] := by
      by_cases hc : (process_file_with_error_handling j).1 = []
      · exact hc
      · exact absurd hc h
    simp [Sum.getLeft?, Sum.getRight?, h0]

theorem fileFold_characterize :
    ∀ (files : List FileJob) (acc : BatchSummary),
      files.foldl processFile acc
        = ⟨acc.processed_files ++ files.filterMap (fun j => (fileEntry j).getLeft?),
           acc.skipped_files ++ files.filterMap (fun j => (fileEntry j).getRight?),
           acc.total_trips + (files.map fileTrips).sum,
           acc.total_files⟩
  | [], acc => by simp
  | j :: files, acc => by
    rw [List.foldl_cons, processFile_eq, fileFold_characterize files]
    cases hj : fileEntry j <;>
      simp [List.filterMap_cons, hj, Sum.getLeft?, Sum.getRight?, Option.toList] <;>
      omega

/-- All data files found across the existing folders, in processing order. -/
def foundFiles (folders : List FolderJob) : List FileJob :=
  (folders.filterMap FolderJob.files).flatten

theorem folderFold_characterize :
    ∀ (folders : List FolderJob) (acc : BatchSummary),
      folders.foldl processFolder acc
        = ⟨acc.processed_files
              ++ (foundFiles folders).filterMap (fun j => (fileEntry j).getLeft?),
           acc.skipped_files
              ++ (foundFiles folders).filterMap (fun j => (fileEntry j).getRight?),
           acc.total_trips + ((foundFiles folders).map fileTrips).sum,
           acc.total_files + (foundFiles folders).length⟩
  | [], acc => by simp [foundFiles]
  | fj :: folders, acc => by
    rw [List.foldl_cons]
    cases hf : fj.files with
    | none =>
      have : processFolder acc fj = acc := by
        unfold processFolder
        rw [hf]
      rw [this, folderFold_characterize folders acc]
      simp [foundFiles, List.filterMap_cons, hf]
    | some files =>
      have hfold : processFolder acc fj
          = if files.isEmpty then acc
            else files.foldl processFile
              { acc with total_files := acc.total_files + files.length } := by
        unfold processFolder
        rw [hf]
      have hfound : foundFiles (fj :: folders) = files ++ foundFiles folders := by
        simp [foundFiles, List.filterMap_cons, hf]
      by_cases hemp : files.isEmpty
      · rw [hfold, if_pos hemp, folderFold_characterize folders acc, hfound]
        have : files = [] := List.isEmpty_iff.mp hemp
        subst this
        simp
      · rw [hfold, if_neg hemp, fileFold_characterize files,
          folderFold_characterize folders, hfound]
        simp [List.filterMap_append, List.map_append, List.append_assoc]
        omega

/-- C3: every failure is caught and recorded as an outcome entry rather than
propagated.  A file-level failure yields exactly the one skip entry; on a
loaded file every detected segment contributes exactly one outcome entry —
computed from that segment alone, so a failing segment never stops its
siblings — and at the batch level every found file contributes exactly its
own entry to the summary, independent of the other files' outcomes. -/
theorem process_batch_error_isolation :
    (∀ (job : FileJob) (msg : String), job.load = .error msg →
        process_file_with_error_handling job = ([], [(job.name, msg)])) ∧
    (∀ (job : FileJob) (lf : LoadedFile) (u : Unit), job.load = .ok lf →
        ¬(lf.tbl.rows.length = 0 ∨ lf.ncols = 0) → ¬ lf.ncols < 3 →
        job.ensureUser = .ok u →
        process_file_with_error_handling job
          = ((detect_trip_boundaries lf.tbl).enum.filterMap
                (fun ib => (segOutcomeEntry job ib).getLeft?),
             (detect_trip_boundaries lf.tbl).enum.filterMap
                (fun ib => (segOutcomeEntry job ib).getRight?)) ∧
        (process_file_with_error_handling job).1.length
            + (process_file_with_error_handling job).2.length
          = (detect_trip_boundaries lf.tbl).length) ∧
    (∀ folders : List FolderJob,
        (process_all_files folders).processed_files
            = (foundFiles folders).filterMap (fun j => (fileEntry j).getLeft?) ∧
        (process_all_files folders).skipped_files
            = (foundFiles folders).filterMap (fun j => (fileEntry j).getRight?)) := by
  refine ⟨?_, ?_, ?_⟩
  · intro job msg h
    unfold process_file_with_error_handling
    rw [h]
  · intro job lf u hload hne hcols huser
    have heq : process_file_with_error_handling job
        = ((detect_trip_boundaries lf.tbl).enum.filterMap
              (fun ib => (segOutcomeEntry job ib).getLeft?),
           (detect_trip_boundaries lf.tbl).enum.filterMap
              (fun ib => (segOutcomeEntry job ib).getRight?)) := by
      unfold process_file_with_error_handling
      rw [hload]
      dsimp only
      rw [if_neg hne, if_neg hcols, huser]
      have := segFold_characterize job (detect_trip_boundaries lf.tbl).enum [] []
      simpa using this
    refine ⟨heq, ?_⟩
    rw [heq]
    dsimp only
    rw [filterMap_sum_count (segOutcomeEntry job)]
    simp [List.enum_length]
  · intro folders
    unfold process_all_files
    rw [folderFold_characterize]
    constructor <;> simp

/-- C10: in the summary of `process_all_files`, each found file contributes
exactly one entry to `processed_files` or `skipped_files`, so their lengths
add up to `total_files`, which counts exactly the files found in the
existing folders. -/
theorem process_all_files_accounting (folders : List FolderJob) :
    (process_all_files folders).processed_files.length
        + (process_all_files folders).skipped_files.length
      = (process_all_files folders).total_files ∧
    (process_all_files folders).total_files = (foundFiles folders).length := by
  unfold process_all_files
  rw [folderFold_characterize]
  dsimp only
  constructor
  · simp only [List.nil_append, Nat.zero_add]
    exact filterMap_sum_count fileEntry (foundFiles folders)
  · simp

def wTrip : TripData := ⟨some 1, some 0, some 1, some 1, some "Good", some 5⟩

def wJobFail : FileJob :=
  ⟨"broken.csv", .error "parse error", .ok (), fun _ => .ok wTrip, fun _ => .ok ()⟩

/-- A two-trip file (a large timestamp gap after row 4) whose first segment
fails in `process_trip_segment` while the second succeeds. -/
def wRows : List Row :=
  ((List.range 5).map fun i => ⟨some (i : ℤ), none, none⟩) ++
  ((List.range 5).map fun i => ⟨some ((i : ℤ) + 10000000000000), none, none⟩)

def wLoaded : LoadedFile := ⟨⟨wRows, true, false, false⟩, 3⟩

def wJobTwoSeg : FileJob :=
  ⟨"two.csv", .ok wLoaded, .ok (),
   fun i => if i = 0 then .error "Validation failed: trip too short" else .ok wTrip,
   fun _ => .ok ()⟩

theorem process_batch_error_isolation_witness :
    process_file_with_error_handling wJobFail = ([], [("broken.csv", "parse error")]) ∧
    process_file_with_error_handling wJobTwoSeg
      = ([("two.csv_trip_2", 1)],
         [("two.csv_trip_1", "Validation failed: trip too short")]) := by
  constructor
  · exact process_batch_error_isolation.1 wJobFail "parse error" rfl
  · have h := (process_batch_error_isolation.2.1 wJobTwoSeg wLoaded () rfl
      (by decide) (by decide) rfl).1
    rw [h]
    decide
